import Mathlib

/-!
Verification of `publish.py`, a single-file Markdown-to-HTML essay publisher.

The program is embedded shallowly over `List Char`: each Python regex
substitution used by the source is translated into an executable Lean
function on character lists, and the title/filename/paragraph logic of
`main`, `markdown_to_html`, `title_from_filename` and `filename_from_title`
is reproduced definition by definition.
-/

/-- Strings are modelled as lists of characters. -/
abbrev Str := List Char

/-- Boolean prefix test: does `pat` occur at the very start of `s`?
Models Python `str.startswith` and the anchored part of a regex match. -/
def begins : Str → Str → Bool
  | [], _ => true
  | _ :: _, [] => false
  | p :: ps, s :: ss => p == s && begins ps ss

/-- Python whitespace class `\s` (ASCII part), as used by `str.strip`
and the regexes `\s*` / `\s+` of the source. -/
def isPySpace (c : Char) : Bool :=
  c == ' ' || c == '\t' || c == '\n' || c == '\r' || c == '\x0b' || c == '\x0c'

/-- Python `str.strip()`: drop whitespace from both ends. -/
def pyStrip (s : Str) : Str :=
  ((s.dropWhile isPySpace).reverse.dropWhile isPySpace).reverse

/-- Split a text into its lines at each newline character
(the line decomposition induced by `re.MULTILINE` anchors). -/
def splitNL : Str → List Str
  | [] => [[]]
  | c :: rest =>
    if c = '\n' then [] :: splitNL rest
    else
      match splitNL rest with
      | [] => [[c]]
      | l :: ls => (c :: l) :: ls

/-- Rejoin lines with newline characters; inverse of `splitNL`. -/
def joinNL : List Str → Str
  | [] => []
  | [l] => l
  | l :: ls => l ++ '\n' :: joinNL ls

/-- Drop everything up to and including the first occurrence of `pat`
inside `s`; `none` when `pat` does not occur.  This is the lazy search
performed by a non-greedy `.*?pat` with `re.DOTALL`. -/
def dropAfter (pat : Str) : Str → Option Str
  | [] => none
  | c :: rest =>
    if begins pat (c :: rest) then some ((c :: rest).drop pat.length)
    else dropAfter pat rest

/-- Source line 18: `re.sub(r'^---\n.*?---\n', '', html, flags=re.DOTALL)`.
The pattern is anchored at the start of the string (no `re.MULTILINE`), so at
most one leading front-matter block is removed, its closing delimiter found
lazily (earliest occurrence). -/
def stripFrontmatter (s : Str) : Str :=
  if begins ("---\n".toList) s then
    match dropAfter ("---\n".toList) (s.drop 4) with
    | some r => r
    | none => s
  else s

/-- One line under a heading substitution `^M (.+)$` → `opn\1cls`
(`M ` = `marker`): if the line starts with the marker and the remainder is
non-empty, the remainder is wrapped in the tags, otherwise the line is kept. -/
def hLine (marker opn cls : Str) (l : Str) : Str :=
  if begins marker l then
    if (l.drop marker.length).isEmpty then l
    else opn ++ l.drop marker.length ++ cls
  else l

/-- A whole-text heading substitution with `re.MULTILINE`: the line-anchored
pattern acts independently on every line. -/
def subHead (marker opn cls : Str) (s : Str) : Str :=
  joinNL ((splitNL s).map (hLine marker opn cls))

/-- Source lines 21-24: the four heading substitutions, longest marker first. -/
def applyHeadings (s : Str) : Str :=
  subHead ("# ".toList) ("<h1>".toList) ("</h1>".toList)
    (subHead ("## ".toList) ("<h2>".toList) ("</h2>".toList)
      (subHead ("### ".toList) ("<h3>".toList) ("</h3>".toList)
        (subHead ("#### ".toList) ("<h4>".toList) ("</h4>".toList) s)))

/-- The compound per-line effect of the four heading substitutions. -/
def headLineAll (l : Str) : Str :=
  hLine ("# ".toList) ("<h1>".toList) ("</h1>".toList)
    (hLine ("## ".toList) ("<h2>".toList) ("</h2>".toList)
      (hLine ("### ".toList) ("<h3>".toList) ("</h3>".toList)
        (hLine ("#### ".toList) ("<h4>".toList) ("</h4>".toList) l)))

/-- Content class `.` of the inline-emphasis regexes: any character except a
newline (`re.DOTALL` is not set for them). -/
def okNl (c : Char) : Bool := c != '\n'

/-- The backtick character (used by the inline-code regex). -/
def backtick : Char := Char.ofNat 96

/-- Lazy body scan of a pattern `opn(X+?)cls`: starting right after the
opening delimiter, find the shortest non-empty run of `ok`-characters
followed by `cls`.  Returns the captured body and the text after `cls`. -/
def scanBody (ok : Char → Bool) (cls : Str) : Str → Option (Str × Str)
  | [] => none
  | c :: rest =>
    if ok c then
      if begins cls rest then some ([c], rest.drop cls.length)
      else
        match scanBody ok cls rest with
        | some (ct, a) => some (c :: ct, a)
        | none => none
    else none

/-- Leftmost match of `opn(X+?)cls` in a text: returns the text before the
match, the captured body, and the text after the match. -/
def seekMatch (ok : Char → Bool) (opn cls : Str) : Str → Option (Str × Str × Str)
  | [] => none
  | c :: rest =>
    match (if begins opn (c :: rest) then scanBody ok cls ((c :: rest).drop opn.length) else none) with
    | some (ct, a) => some ([], ct, a)
    | none =>
      match seekMatch ok opn cls rest with
      | some (b, ct, a) => some (c :: b, ct, a)
      | none => none

/-- Global substitution of `opn(X+?)cls` by `pre\1post`, replacing
non-overlapping matches left to right, with explicit fuel. -/
def subPatFuel (ok : Char → Bool) (opn cls pre post : Str) : Nat → Str → Str
  | 0, s => s
  | Nat.succ f, s =>
    match seekMatch ok opn cls s with
    | none => s
    | some (b, ct, a) => b ++ pre ++ ct ++ post ++ subPatFuel ok opn cls pre post f a

/-- Global substitution of `opn(X+?)cls` by `pre\1post` (fuel instantiated:
every match consumes at least one character, so `s.length` rounds suffice). -/
def subPat (ok : Char → Bool) (opn cls pre post : Str) (s : Str) : Str :=
  subPatFuel ok opn cls pre post s.length s

/-- Source lines 27-32: the six emphasis substitutions in their exact order
(triple, double, single asterisk, then triple, double, single underscore). -/
def applyEmphasis (s : Str) : Str :=
  subPat okNl ("_".toList) ("_".toList) ("<em>".toList) ("</em>".toList)
    (subPat okNl ("__".toList) ("__".toList) ("<strong>".toList) ("</strong>".toList)
      (subPat okNl ("___".toList) ("___".toList) ("<strong><em>".toList) ("</em></strong>".toList)
        (subPat okNl ("*".toList) ("*".toList) ("<em>".toList) ("</em>".toList)
          (subPat okNl ("**".toList) ("**".toList) ("<strong>".toList) ("</strong>".toList)
            (subPat okNl ("***".toList) ("***".toList) ("<strong><em>".toList) ("</em></strong>".toList) s)))))

/-- Source line 38: inline code, `re.sub` of a backtick-delimited span whose
body is one or more non-backtick characters. -/
def subCode (s : Str) : Str :=
  subPat (fun c => c != backtick) [backtick] [backtick] ("<code>".toList) ("</code>".toList) s

/-- Split off the (possibly empty) run before the first occurrence of `stop`,
together with the text after it; `none` when `stop` does not occur. -/
def splitAtChar (stop : Char) : Str → Option (Str × Str)
  | [] => none
  | c :: rest =>
    if c = stop then some ([], rest)
    else
      match splitAtChar stop rest with
      | some (a, b) => some (c :: a, b)
      | none => none

/-- Attempt to complete a link match just after an opening bracket:
`([^\]]+)\]\(([^)]+)\)` — a non-empty bracket-free text, the closing
bracket, an opening parenthesis, a non-empty parenthesis-free URL, and the
closing parenthesis. -/
def tryLink (rest : Str) : Option (Str × Str × Str) :=
  match splitAtChar ']' rest with
  | none => none
  | some (t, r2) =>
    if t.isEmpty then none
    else
      match r2 with
      | '(' :: r3 =>
        match splitAtChar ')' r3 with
        | none => none
        | some (u, r4) => if u.isEmpty then none else some (t, u, r4)
      | _ => none

/-- Leftmost match of the link pattern `\[([^\]]+)\]\(([^)]+)\)`. -/
def seekLink : Str → Option (Str × Str × Str × Str)
  | [] => none
  | c :: rest =>
    match (if c = '[' then tryLink rest else none) with
    | some (t, u, a) => some ([], t, u, a)
    | none =>
      match seekLink rest with
      | some (b, t, u, a) => some (c :: b, t, u, a)
      | none => none

/-- Global link substitution with fuel. -/
def subLinkFuel : Nat → Str → Str
  | 0, s => s
  | Nat.succ f, s =>
    match seekLink s with
    | none => s
    | some (b, t, u, a) =>
      b ++ ("<a href=\"".toList) ++ u ++ ("\">".toList) ++ t ++ ("</a>".toList) ++ subLinkFuel f a

/-- Source line 35: `re.sub(r'\[([^\]]+)\]\(([^)]+)\)', r'<a href="\2">\1</a>', html)`. -/
def subLink (s : Str) : Str := subLinkFuel s.length s

/-- Greedy tail of a blank-line separator: after an initial newline, consume
the whitespace run up to and including its last newline (the backtracking
behaviour of `\s*\n` after `\n`).  Returns the text after the separator,
or `none` when the pattern cannot complete here. -/
def blankTail : Str → Option Str
  | [] => none
  | c :: rest =>
    if isPySpace c then
      match blankTail rest with
      | some a => some a
      | none => if c = '\n' then some rest else none
    else none

/-- Leftmost match of the paragraph separator `\n\s*\n`: the text before the
separator and the text after it. -/
def seekBlank : Str → Option (Str × Str)
  | [] => none
  | c :: rest =>
    match (if c = '\n' then blankTail rest else none) with
    | some a => some ([], a)
    | none =>
      match seekBlank rest with
      | some (b, a) => some (c :: b, a)
      | none => none

/-- `re.split(r'\n\s*\n', s)` with fuel: cut at each non-overlapping
separator match, left to right. -/
def splitBlankFuel : Nat → Str → List Str
  | 0, s => [s]
  | Nat.succ f, s =>
    match seekBlank s with
    | none => [s]
    | some (b, a) => b :: splitBlankFuel f a

/-- Source line 41: `re.split(r'\n\s*\n', html.strip())` (the strip is done
by the caller here; every separator consumes at least two characters, so
`s.length` rounds of fuel suffice). -/
def splitBlank (s : Str) : List Str := splitBlankFuel s.length s

/-- Source lines 44-54, one paragraph: strip; drop if empty; keep verbatim if
it starts with a heading or list-container tag; otherwise collapse internal
newlines to spaces and wrap in a paragraph tag. -/
def processBlock (p : Str) : Option Str :=
  let q := pyStrip p
  if q.isEmpty then none
  else if begins ("<h".toList) q || begins ("<ul".toList) q || begins ("<ol".toList) q then some q
  else some ("<p>".toList ++ q.map (fun c => if c = '\n' then ' ' else c) ++ "</p>".toList)

/-- Source line 56: the fixed block separator (newline, twelve spaces,
newline, twelve spaces). -/
def blockSep : Str := "\n            \n            ".toList

/-- Source lines 13-56, `markdown_to_html`: front-matter removal, the four
heading substitutions, the six emphasis substitutions, links, inline code,
paragraph segmentation, per-paragraph processing, and the final join. -/
def markdown_to_html (md : Str) : Str :=
  let h := stripFrontmatter md
  let h := applyHeadings h
  let h := applyEmphasis h
  let h := subLink h
  let h := subCode h
  let bs := splitBlank (pyStrip h)
  List.intercalate blockSep (bs.filterMap processBlock)

/-- The final path component of a file path (`pathlib` name). -/
def afterLastSlash (s : Str) : Str :=
  (s.reverse.takeWhile (fun c => c ≠ '/')).reverse

/-- `pathlib.Path(...).stem`: the name with its last suffix removed; the dot
must be an interior character (`0 < i < len(name) - 1`) for a suffix to exist. -/
def pathStem (file : Str) : Str :=
  let name := afterLastSlash file
  let extRev := name.reverse.takeWhile (fun c => c ≠ '.')
  if name.contains '.' then
    let i := name.length - extRev.length - 1
    if 0 < i ∧ i + 1 < name.length then name.take i else name
  else name

/-- Python `str.title()` (ASCII model): an alphabetic character is
uppercased when the previous character was not alphabetic, lowercased
otherwise. -/
def pyTitleAux : Bool → Str → Str
  | _, [] => []
  | prevCased, c :: rest =>
    if c.isAlpha then
      (if prevCased then c.toLower else c.toUpper) :: pyTitleAux true rest
    else c :: pyTitleAux false rest

/-- Source lines 177-181, `title_from_filename`: the path stem with hyphens
and underscores turned to spaces, then title-cased. -/
def title_from_filename (file : Str) : Str :=
  pyTitleAux false
    ((pathStem file).map (fun c => if c = '-' then ' ' else if c = '_' then ' ' else c))

/-- The character class `[a-z0-9\s-]` kept by the slug filter. -/
def slugKeep (c : Char) : Bool :=
  c.isLower || c.isDigit || isPySpace c || c == '-'

/-- Global substitution of a single-character class by a fixed replacement:
`re.sub(r'[class]', repl, s)` (each matching character replaced separately). -/
def subCharClass (mem : Char → Bool) (repl : Str) : Str → Str
  | [] => []
  | c :: rest =>
    if mem c then repl ++ subCharClass mem repl rest
    else c :: subCharClass mem repl rest

/-- Global substitution of a greedy one-or-more character-class run,
`re.sub(r'[class]+', repl, s)`: a maximal run of matching characters is
replaced by one copy of `repl`.  The flag records whether the previous
character was part of a run. -/
def subClassRunAux (mem : Char → Bool) (repl : Str) : Bool → Str → Str
  | _, [] => []
  | inRun, c :: rest =>
    if mem c then (if inRun then [] else repl) ++ subClassRunAux mem repl true rest
    else c :: subClassRunAux mem repl false rest

/-- Global substitution of a greedy one-or-more character-class run. -/
def subClassRun (mem : Char → Bool) (repl : Str) (s : Str) : Str :=
  subClassRunAux mem repl false s

/-- Source lines 183-189, `filename_from_title`: lowercase, remove every
character outside `[a-z0-9\s-]`, collapse whitespace runs to single
hyphens, append `.html`. -/
def filename_from_title (title : Str) : Str :=
  let f := title.map Char.toLower
  let f := subCharClass (fun c => !(slugKeep c)) [] f
  let f := subClassRun isPySpace ("-".toList) f
  f ++ ".html".toList

/-- The slug part of `filename_from_title` (everything before `.html`). -/
def slugPart (title : Str) : Str :=
  subClassRun isPySpace ("-".toList)
    (subCharClass (fun c => !(slugKeep c)) [] (title.map Char.toLower))

/-- Characters that can appear in a generated slug. -/
def slugChar (c : Char) : Bool := c.isLower || c.isDigit || c == '-'

/-! The fixed page template of `create_essay_html` (source lines 58-175),
split at the three insertion points `title`, `title`, `date`, `content`. -/

def tplPart1 : String :=
    "<!DOCTYPE html>\n" ++
    "<html lang=\"en\">\n" ++
    "<head>\n" ++
    "    <meta charset=\"UTF-8\">\n" ++
    "    <meta name=\"viewport\" content=\"width=device-width, initial-scale=1.0\">\n" ++
    "    <title>"

def tplPart2 : String :=
    " - Daksh Mehta</title>\n" ++
    "    <style>\n" ++
    "        body \x7b\n" ++
    "            font-family: Verdana, Geneva, sans-serif;\n" ++
    "            font-size: 14px;\n" ++
    "            line-height: 1.8;\n" ++
    "            color: #000;\n" ++
    "            background-color: #f6f6ef;\n" ++
    "            margin: 0;\n" ++
    "            padding: 20px;\n" ++
    "        \x7d\n" ++
    "        \n" ++
    "        .container \x7b\n" ++
    "            max-width: 600px;\n" ++
    "            margin: 0 auto;\n" ++
    "            padding: 20px;\n" ++
    "        \x7d\n" ++
    "        \n" ++
    "        h1 \x7b\n" ++
    "            font-size: 18px;\n" ++
    "            font-weight: bold;\n" ++
    "            margin-bottom: 10px;\n" ++
    "        \x7d\n" ++
    "        \n" ++
    "        h2 \x7b\n" ++
    "            font-size: 16px;\n" ++
    "            font-weight: bold;\n" ++
    "            margin-top: 30px;\n" ++
    "            margin-bottom: 15px;\n" ++
    "        \x7d\n" ++
    "        \n" ++
    "        h3 \x7b\n" ++
    "            font-size: 15px;\n" ++
    "            font-weight: bold;\n" ++
    "            margin-top: 25px;\n" ++
    "            margin-bottom: 12px;\n" ++
    "        \x7d\n" ++
    "        \n" ++
    "        a \x7b\n" ++
    "            color: #000;\n" ++
    "            text-decoration: underline;\n" ++
    "        \x7d\n" ++
    "        \n" ++
    "        a:hover \x7b\n" ++
    "            color: #666;\n" ++
    "        \x7d\n" ++
    "        \n" ++
    "        .nav \x7b\n" ++
    "            margin-bottom: 30px;\n" ++
    "        \x7d\n" ++
    "        \n" ++
    "        .nav a \x7b\n" ++
    "            margin-right: 15px;\n" ++
    "        \x7d\n" ++
    "        \n" ++
    "        .date \x7b\n" ++
    "            color: #666;\n" ++
    "            font-size: 12px;\n" ++
    "            margin-bottom: 30px;\n" ++
    "        \x7d\n" ++
    "        \n" ++
    "        .content p \x7b\n" ++
    "            margin-bottom: 20px;\n" ++
    "            text-align: justify;\n" ++
    "        \x7d\n" ++
    "        \n" ++
    "        .content code \x7b\n" ++
    "            background-color: #e8e8e0;\n" ++
    "            padding: 2px 5px;\n" ++
    "            font-family: monospace;\n" ++
    "        \x7d\n" ++
    "        \n" ++
    "        .footer \x7b\n" ++
    "            margin-top: 50px;\n" ++
    "            font-size: 12px;\n" ++
    "            color: #666;\n" ++
    "        \x7d\n" ++
    "        \n" ++
    "        hr \x7b\n" ++
    "            border: none;\n" ++
    "            border-top: 1px solid #ccc;\n" ++
    "            margin: 20px 0;\n" ++
    "        \x7d\n" ++
    "    </style>\n" ++
    "</head>\n" ++
    "<body>\n" ++
    "    <div class=\"container\">\n" ++
    "        <h1>"

def tplPart3 : String :=
    "</h1>\n" ++
    "        <div class=\"date\">"

def tplPart4 : String :=
    "</div>\n" ++
    "        \n" ++
    "        <div class=\"nav\">\n" ++
    "            <a href=\"../index.html\">Home</a>\n" ++
    "            <a href=\"../articles.html\">Essays</a>\n" ++
    "            <a href=\"../about.html\">About</a>\n" ++
    "        </div>\n" ++
    "        \n" ++
    "        <hr>\n" ++
    "        \n" ++
    "        <div class=\"content\">\n" ++
    "            "

def tplPart5 : String :=
    "\n" ++
    "        </div>\n" ++
    "        \n" ++
    "        <hr>\n" ++
    "        \n" ++
    "        <div class=\"footer\">\n" ++
    "            &copy; 2026 Daksh Mehta\n" ++
    "        </div>\n" ++
    "    </div>\n" ++
    "</body>\n" ++
    "</html>\n"

/-- Source lines 58-175, `create_essay_html`: render title, content and date
into the fixed page template. -/
def create_essay_html (title content date : Str) : Str :=
  tplPart1.toList ++ title ++ tplPart2.toList ++ title ++ tplPart3.toList ++ date ++
    tplPart4.toList ++ content ++ tplPart5.toList

/-- One line of the title search `re.search(r'^# (.+)$', md, re.MULTILINE)`:
the captured group when the line matches. -/
def headOfLine (l : Str) : Option Str :=
  if begins ("# ".toList) l then
    if (l.drop 2).isEmpty then none else some (l.drop 2)
  else none

/-- First line of a line list matching `^# (.+)$`, scanning top to bottom. -/
def findHeadingLine : List Str → Option Str
  | [] => none
  | l :: ls =>
    match headOfLine l with
    | some t => some t
    | none => findHeadingLine ls

/-- Source line 213: the first line of the text matching `^# (.+)$`
(multiline search over the raw, unstripped content). -/
def searchHeading (md : Str) : Option Str :=
  findHeadingLine (splitNL md)

/-- Source line 217: `re.sub(r'^# .+\n', '', md_content, count=1)`.  Without
`re.MULTILINE` the anchor matches only at the start of the whole text, so a
heading line is removed only when the text begins with `# `, a non-empty
rest-of-line, and a newline. -/
def removeLeadingHeading (md : Str) : Str :=
  if begins ("# ".toList) md then
    let t := (md.drop 2).takeWhile (fun c => c ≠ '\n')
    let r := (md.drop 2).dropWhile (fun c => c ≠ '\n')
    if t.isEmpty then md
    else
      match r with
      | [] => md
      | _ :: r' => r'
  else md

/-- Source lines 209-219: title resolution.  An explicit argument wins;
otherwise the first `^# (.+)$` line of the raw content becomes the title and
the start-anchored removal is attempted; otherwise the title is derived from
the file name.  Returns the resolved title and the content passed on to
`markdown_to_html`. -/
def resolveTitle (argTitle : Option Str) (mdFile md : Str) : Str × Str :=
  match argTitle with
  | some t => (t, md)
  | none =>
    match searchHeading md with
    | some t => (t, removeLeadingHeading md)
    | none => (title_from_filename mdFile, md)

/-- Observable outcome of one run of `main`: usage error (no file argument),
missing input file, or a successful write of one output file. -/
inductive Outcome where
  | usage : Outcome
  | missing : Outcome
  | written : Str → Str → Outcome
deriving DecidableEq

/-- Source lines 191-236, `main`, modelled over the argument list after the
program name and a read-only view of the file system.  The output path is
the fixed `essays` directory next to the script.  (The best-effort
`update-essays.sh` invocation after a successful write has no effect on the
outcome and is not modelled.) -/
def runMain (args : List Str) (fs : Str → Option Str) : Outcome :=
  match args with
  | [] => Outcome.usage
  | file :: rest =>
    match fs file with
    | none => Outcome.missing
    | some content =>
      let tb := resolveTitle rest.head? file content
      let html := markdown_to_html tb.2
      let full := create_essay_html tb.1 html ("2026".toList)
      Outcome.written ("essays/".toList ++ filename_from_title tb.1) full

/-- Process exit status of an outcome (`sys.exit(1)` on the two error paths,
0 on success). -/
def exitCode : Outcome → Nat
  | Outcome.written _ _ => 0
  | _ => 1

/-- The files written by a run: none on either error path. -/
def writesOf : Outcome → List (Str × Str)
  | Outcome.written p c => [(p, c)]
  | _ => []

/-- The output path of a successful run, if any. -/
def pathOf : Outcome → Option Str
  | Outcome.written p _ => some p
  | _ => none

/-! Helper lemmas about the embedded operations. -/

theorem begins_append_self (l t : Str) : begins l (l ++ t) = true := by
  induction l with
  | nil => rfl
  | cons c cs ih => simp [begins, ih]

theorem isEmpty_false_of_ne {α : Type} {l : List α} (h : l ≠ []) : l.isEmpty = false := by
  cases l with
  | nil => exact absurd rfl h
  | cons a as => rfl

theorem drop_len_append (l t : Str) : (l ++ t).drop l.length = t := by
  induction l with
  | nil => rfl
  | cons c cs ih => exact ih

theorem splitNL_ne_nil (s : Str) : splitNL s ≠ [] := by
  induction s with
  | nil => simp [splitNL]
  | cons c rest ih =>
    simp only [splitNL]
    split
    · simp
    · cases h : splitNL rest with
      | nil => simp
      | cons l ls => simp

theorem splitNL_single {l : Str} (h : '\n' ∉ l) : splitNL l = [l] := by
  induction l with
  | nil => rfl
  | cons c rest ih =>
    have hc : c ≠ '\n' := fun hc => h (hc ▸ List.mem_cons_self c rest)
    have hr : '\n' ∉ rest := fun hm => h (List.mem_cons_of_mem c hm)
    simp only [splitNL, if_neg hc, ih hr]

theorem splitNL_append {l : Str} (t : Str) (h : '\n' ∉ l) :
    splitNL (l ++ '\n' :: t) = l :: splitNL t := by
  induction l with
  | nil => simp [splitNL]
  | cons c rest ih =>
    have hc : c ≠ '\n' := fun hc => h (hc ▸ List.mem_cons_self c rest)
    have hr : '\n' ∉ rest := fun hm => h (List.mem_cons_of_mem c hm)
    simp only [List.cons_append, splitNL, if_neg hc]
    rw [List.append_eq, ih hr]

theorem splitNL_join {ls : List Str} (hne : ls ≠ []) (h : ∀ l ∈ ls, '\n' ∉ l) :
    splitNL (joinNL ls) = ls := by
  induction ls with
  | nil => exact absurd rfl hne
  | cons l ls ih =>
    cases ls with
    | nil => exact splitNL_single (h l (List.mem_cons_self l []))
    | cons l2 ls2 =>
      have h1 : '\n' ∉ l := h l (List.mem_cons_self _ _)
      have h2 : ∀ x ∈ l2 :: ls2, '\n' ∉ x := fun x hx => h x (List.mem_cons_of_mem l hx)
      calc splitNL (joinNL (l :: l2 :: ls2))
          = splitNL (l ++ '\n' :: joinNL (l2 :: ls2)) := rfl
        _ = l :: splitNL (joinNL (l2 :: ls2)) := splitNL_append _ h1
        _ = l :: l2 :: ls2 := by rw [ih (by simp) h2]

theorem hLine_noNl {m opn cls l : Str} (ho : '\n' ∉ opn) (hc : '\n' ∉ cls)
    (hl : '\n' ∉ l) : '\n' ∉ hLine m opn cls l := by
  unfold hLine
  split
  · split
    · exact hl
    · intro hmem
      rcases List.mem_append.mp hmem with h | h
      · rcases List.mem_append.mp h with h | h
        · exact ho h
        · exact hl (List.mem_of_mem_drop h)
      · exact hc h
  · exact hl

theorem subHead_join {m opn cls : Str}
    {ls : List Str} (hne : ls ≠ []) (h : ∀ l ∈ ls, '\n' ∉ l) :
    subHead m opn cls (joinNL ls) = joinNL (ls.map (hLine m opn cls)) := by
  unfold subHead
  rw [splitNL_join hne h]

theorem applyHeadings_join {ls : List Str} (hne : ls ≠ []) (h : ∀ l ∈ ls, '\n' ∉ l) :
    applyHeadings (joinNL ls) = joinNL (ls.map headLineAll) := by
  have noNl4 : ∀ l ∈ ls.map (hLine ("#### ".toList) ("<h4>".toList) ("</h4>".toList)),
      '\n' ∉ l := by
    intro l hl
    rcases List.mem_map.mp hl with ⟨x, hx, rfl⟩
    exact hLine_noNl (by decide) (by decide) (h x hx)
  have noNl3 : ∀ l ∈ (ls.map (hLine ("#### ".toList) ("<h4>".toList) ("</h4>".toList))).map
      (hLine ("### ".toList) ("<h3>".toList) ("</h3>".toList)), '\n' ∉ l := by
    intro l hl
    rcases List.mem_map.mp hl with ⟨x, hx, rfl⟩
    exact hLine_noNl (by decide) (by decide) (noNl4 x hx)
  have noNl2 : ∀ l ∈ ((ls.map (hLine ("#### ".toList) ("<h4>".toList) ("</h4>".toList))).map
      (hLine ("### ".toList) ("<h3>".toList) ("</h3>".toList))).map
      (hLine ("## ".toList) ("<h2>".toList) ("</h2>".toList)), '\n' ∉ l := by
    intro l hl
    rcases List.mem_map.mp hl with ⟨x, hx, rfl⟩
    exact hLine_noNl (by decide) (by decide) (noNl3 x hx)
  have hne4 : ls.map (hLine ("#### ".toList) ("<h4>".toList) ("</h4>".toList)) ≠ [] := by
    simpa using hne
  have hne3 : (ls.map (hLine ("#### ".toList) ("<h4>".toList) ("</h4>".toList))).map
      (hLine ("### ".toList) ("<h3>".toList) ("</h3>".toList)) ≠ [] := by
    simpa using hne
  have hne2 : ((ls.map (hLine ("#### ".toList) ("<h4>".toList) ("</h4>".toList))).map
      (hLine ("### ".toList) ("<h3>".toList) ("</h3>".toList))).map
      (hLine ("## ".toList) ("<h2>".toList) ("</h2>".toList)) ≠ [] := by
    simpa using hne
  unfold applyHeadings
  rw [subHead_join hne h, subHead_join hne4 noNl4,
      subHead_join hne3 noNl3, subHead_join hne2 noNl2]
  simp only [List.map_map]
  rfl

theorem begins_head_eq {p : Char} {ps : Str} {s : Char} {ss : Str}
    (h : begins (p :: ps) (s :: ss) = true) : p = s := by
  simp only [begins, Bool.and_eq_true, beq_iff_eq] at h
  exact h.1

theorem begins_cons_of_ne {p : Char} {ps : Str} {s : Char} {ss : Str}
    (h : p ≠ s) : begins (p :: ps) (s :: ss) = false := by
  simp [begins, h]


theorem scanBody_cons_step {ok : Char → Bool} {cls : Str} {c : Char} {rest : Str}
    (h1 : ok c = true) (h2 : begins cls rest = false) :
    scanBody ok cls (c :: rest)
      = match scanBody ok cls rest with
        | some (ct, a) => some (c :: ct, a)
        | none => none := by
  simp [scanBody, h1, h2]

theorem scanBody_cons_close {ok : Char → Bool} {cls : Str} {c : Char} {rest : Str}
    (h1 : ok c = true) (h2 : begins cls rest = true) :
    scanBody ok cls (c :: rest) = some ([c], rest.drop cls.length) := by
  simp [scanBody, h1, h2]

theorem scanBody_exact {ok : Char → Bool} {d : Char} {ds : Str} {ct : Str} (r : Str)
    (hne : ct ≠ []) (hok : ∀ c ∈ ct, ok c = true) (hd : ∀ c ∈ ct, c ≠ d) :
    scanBody ok (d :: ds) (ct ++ (d :: ds) ++ r) = some (ct, r) := by
  induction ct with
  | nil => exact absurd rfl hne
  | cons c ct' ih =>
    have hokc : ok c = true := hok c (List.mem_cons_self _ _)
    cases ct' with
    | nil =>
      have hshape : ([c] ++ (d :: ds) ++ r) = c :: ((d :: ds) ++ r) := by simp
      have hb : begins (d :: ds) ((d :: ds) ++ r) = true := begins_append_self _ _
      have hdrop : ((d :: ds) ++ r).drop (d :: ds).length = r := drop_len_append _ _
      rw [hshape, scanBody_cons_close hokc hb, hdrop]
    | cons c2 ct2 =>
      have hok2 : ∀ x ∈ c2 :: ct2, ok x = true :=
        fun x hx => hok x (List.mem_cons_of_mem c hx)
      have hd2 : ∀ x ∈ c2 :: ct2, x ≠ d :=
        fun x hx => hd x (List.mem_cons_of_mem c hx)
      have ihv := ih (by simp) hok2 hd2
      have hsh2 : ((c2 :: ct2) ++ (d :: ds) ++ r) = c2 :: (ct2 ++ (d :: ds) ++ r) := by simp
      have hbeg : begins (d :: ds) ((c2 :: ct2) ++ (d :: ds) ++ r) = false := by
        rw [hsh2]
        exact begins_cons_of_ne (fun hdc => (hd2 c2 (List.mem_cons_self _ _)) hdc.symm)
      have hshape : ((c :: c2 :: ct2) ++ (d :: ds) ++ r)
          = c :: ((c2 :: ct2) ++ (d :: ds) ++ r) := by simp
      rw [hshape, scanBody_cons_step hokc hbeg, ihv]

theorem seekMatch_cons_hit {ok : Char → Bool} {opn cls : Str} {c : Char} {rest : Str}
    {ct a : Str} (h1 : begins opn (c :: rest) = true)
    (h2 : scanBody ok cls ((c :: rest).drop opn.length) = some (ct, a)) :
    seekMatch ok opn cls (c :: rest) = some ([], ct, a) := by
  simp [seekMatch, h1, h2]

theorem seekMatch_cons_miss {ok : Char → Bool} {opn cls : Str} {c : Char} {rest : Str}
    (h1 : begins opn (c :: rest) = false) :
    seekMatch ok opn cls (c :: rest)
      = match seekMatch ok opn cls rest with
        | some (b, ct, a) => some (c :: b, ct, a)
        | none => none := by
  simp [seekMatch, h1]

theorem seekMatch_exact {ok : Char → Bool} {o : Char} {os : Str} {d : Char} {ds : Str}
    {ct : Str} (r : Str) (hne : ct ≠ []) (hok : ∀ c ∈ ct, ok c = true)
    (hd : ∀ c ∈ ct, c ≠ d) :
    seekMatch ok (o :: os) (d :: ds) ((o :: os) ++ (ct ++ (d :: ds) ++ r))
      = some ([], ct, r) := by
  have hshape : (o :: os) ++ (ct ++ (d :: ds) ++ r)
      = o :: (os ++ (ct ++ (d :: ds) ++ r)) := by simp
  have hb : begins (o :: os) ((o :: os) ++ (ct ++ (d :: ds) ++ r)) = true :=
    begins_append_self _ _
  rw [hshape] at hb
  have hdrop : (o :: (os ++ (ct ++ (d :: ds) ++ r))).drop (o :: os).length
      = ct ++ (d :: ds) ++ r := by
    exact drop_len_append (o :: os) (ct ++ (d :: ds) ++ r)
  rw [hshape]
  exact seekMatch_cons_hit hb (by rw [hdrop]; exact scanBody_exact r hne hok hd)

theorem seekMatch_none_of_not_mem {ok : Char → Bool} {o : Char} {os cls : Str} {s : Str}
    (h : o ∉ s) : seekMatch ok (o :: os) cls s = none := by
  induction s with
  | nil => rfl
  | cons c rest ih =>
    have hco : o ≠ c := fun he => h (he ▸ List.mem_cons_self c rest)
    have hrest : o ∉ rest := fun hm => h (List.mem_cons_of_mem c hm)
    rw [seekMatch_cons_miss (begins_cons_of_ne hco), ih hrest]

theorem subPatFuel_nil (ok : Char → Bool) (opn cls pre post : Str) (f : Nat) :
    subPatFuel ok opn cls pre post f [] = [] := by
  cases f with
  | zero => rfl
  | succ f' => rfl

theorem subPat_id_of_not_mem {ok : Char → Bool} {o : Char} {os cls pre post : Str}
    {s : Str} (h : o ∉ s) : subPat ok (o :: os) cls pre post s = s := by
  unfold subPat
  cases hf : s.length with
  | zero => rfl
  | succ f => simp only [subPatFuel, seekMatch_none_of_not_mem h]

theorem subPat_exact {ok : Char → Bool} {o : Char} {os : Str} {d : Char} {ds : Str}
    {ct : Str} (pre post : Str) (hne : ct ≠ []) (hok : ∀ c ∈ ct, ok c = true)
    (hd : ∀ c ∈ ct, c ≠ d) :
    subPat ok (o :: os) (d :: ds) pre post ((o :: os) ++ ct ++ (d :: ds))
      = pre ++ ct ++ post := by
  have hseek : seekMatch ok (o :: os) (d :: ds) ((o :: os) ++ (ct ++ (d :: ds) ++ []))
      = some ([], ct, []) := seekMatch_exact [] hne hok hd
  rw [List.append_nil] at hseek
  have hsh : (o :: os) ++ ct ++ (d :: ds) = (o :: os) ++ (ct ++ (d :: ds)) := by simp
  unfold subPat
  rw [hsh]
  have hlen : ((o :: os) ++ (ct ++ (d :: ds))).length
      = (os ++ (ct ++ (d :: ds))).length + 1 := by simp
  rw [hlen]
  simp only [subPatFuel, hseek, subPatFuel_nil]
  simp

theorem subCharClass_filter (keep : Char → Bool) (s : Str) :
    subCharClass (fun c => !(keep c)) [] s = s.filter keep := by
  induction s with
  | nil => rfl
  | cons c rest ih =>
    cases hk : keep c with
    | false => simp [subCharClass, List.filter, hk, ih]
    | true => simp [subCharClass, List.filter, hk, ih]

/-- Direct description of collapsing each maximal run of `mem`-characters to
one copy of `repl` (the spec reading of `re.sub(r'[class]+', repl, s)`). -/
def collapseRuns (mem : Char → Bool) (repl : Str) : Str → Str
  | [] => []
  | c :: rest =>
    if mem c then repl ++ collapseRuns mem repl (rest.dropWhile mem)
    else c :: collapseRuns mem repl rest
  termination_by s => s.length
  decreasing_by
    · simp only [List.length_cons]
      exact Nat.lt_succ_of_le (List.dropWhile_sublist mem).length_le
    · simp

theorem subClassRunAux_true_eq (mem : Char → Bool) (repl : Str) (s : Str) :
    subClassRunAux mem repl true s = subClassRunAux mem repl false (s.dropWhile mem) := by
  induction s with
  | nil => rfl
  | cons c rest ih =>
    cases hm : mem c with
    | true => simp [subClassRunAux, List.dropWhile, hm, ih]
    | false => simp [subClassRunAux, List.dropWhile, hm]

theorem subClassRunAux_eq_collapseRuns (mem : Char → Bool) (repl : Str) :
    ∀ n s, List.length s ≤ n → subClassRunAux mem repl false s = collapseRuns mem repl s := by
  intro n
  induction n with
  | zero =>
    intro s hs
    have hnil : s = [] := List.eq_nil_of_length_eq_zero (Nat.le_zero.mp hs)
    subst hnil
    simp [subClassRunAux, collapseRuns]
  | succ n ih =>
    intro s hs
    cases s with
    | nil => simp [subClassRunAux, collapseRuns]
    | cons c rest =>
      cases hm : mem c with
      | true =>
        have hlen : (rest.dropWhile mem).length ≤ n := by
          have h1 := (List.dropWhile_sublist (l := rest) mem).length_le
          have h2 : rest.length ≤ n := Nat.le_of_succ_le_succ hs
          omega
        rw [collapseRuns]
        simp only [subClassRunAux, hm, if_true, subClassRunAux_true_eq, ih _ hlen]
        simp
      | false =>
        have hlen : rest.length ≤ n := Nat.le_of_succ_le_succ hs
        rw [collapseRuns]
        simp only [subClassRunAux, hm, ih _ hlen]
        simp

theorem subClassRun_eq_collapseRuns (mem : Char → Bool) (repl : Str) (s : Str) :
    subClassRun mem repl s = collapseRuns mem repl s :=
  subClassRunAux_eq_collapseRuns mem repl s.length s (Nat.le_refl _)

theorem subClassRunAux_slug {s : Str} (h : ∀ c ∈ s, slugKeep c = true) :
    ∀ b, ∀ x ∈ subClassRunAux isPySpace ("-".toList) b s, slugChar x = true := by
  induction s with
  | nil => intro b x hx; simp [subClassRunAux] at hx
  | cons c rest ih =>
    intro b x hx
    have hc : slugKeep c = true := h c (List.mem_cons_self _ _)
    have hrest : ∀ y ∈ rest, slugKeep y = true :=
      fun y hy => h y (List.mem_cons_of_mem c hy)
    cases hm : isPySpace c with
    | true =>
      cases b with
      | true =>
        simp only [subClassRunAux, hm, if_true, if_pos rfl, List.nil_append] at hx
        exact ih hrest true x hx
      | false =>
        simp only [subClassRunAux, hm, if_true] at hx
        rcases List.mem_append.mp hx with h1 | h2
        · have : x = '-' := by
            simpa using h1
          subst this
          decide
        · exact ih hrest true x h2
    | false =>
      have hsc : slugChar c = true := by
        simp only [slugKeep, hm, Bool.or_false] at hc
        simp only [slugChar]
        rcases Bool.or_eq_true_iff.mp hc with h1 | h2
        · rcases Bool.or_eq_true_iff.mp h1 with h3 | h4
          · simp [h3]
          · simp [h4]
        · simp [h2]
      simp only [subClassRunAux, hm] at hx
      rcases List.mem_cons.mp hx with h1 | h2
      · subst h1; exact hsc
      · exact ih hrest false x h2

theorem takeWhile_append_stop {t : Str} (r : Str) (h : '\n' ∉ t) :
    (t ++ '\n' :: r).takeWhile (fun c => c ≠ '\n') = t := by
  induction t with
  | nil => simp [List.takeWhile]
  | cons c t' ih =>
    have hc : c ≠ '\n' := fun he => h (he ▸ List.mem_cons_self c t')
    have ht' : '\n' ∉ t' := fun hm => h (List.mem_cons_of_mem c hm)
    have ih' := ih ht'
    simp only [List.cons_append, List.takeWhile_cons]
    rw [if_pos (by simp [hc]), ih']

theorem dropWhile_append_stop {t : Str} (r : Str) (h : '\n' ∉ t) :
    (t ++ '\n' :: r).dropWhile (fun c => c ≠ '\n') = '\n' :: r := by
  induction t with
  | nil => simp [List.dropWhile]
  | cons c t' ih =>
    have hc : c ≠ '\n' := fun he => h (he ▸ List.mem_cons_self c t')
    have ht' : '\n' ∉ t' := fun hm => h (List.mem_cons_of_mem c hm)
    have ih' := ih ht'
    simp only [List.cons_append, List.dropWhile_cons]
    rw [if_pos (by simp [hc]), ih']

theorem stripFrontmatter_of_no_block {s : Str}
    (h : begins ("---\n".toList) s = false) : stripFrontmatter s = s := by
  unfold stripFrontmatter
  rw [h]
  simp

/-! Claim theorems. -/

/-- C3 (counterexample): front-matter removal is not idempotent.  On an
input with two stacked front-matter blocks the first application removes
only the first block, and a second application removes the second. -/
theorem stripFrontmatter_not_idempotent :
    stripFrontmatter (stripFrontmatter ("---\na\n---\n---\nb\n---\nr".toList))
      ≠ stripFrontmatter ("---\na\n---\n---\nb\n---\nr".toList) := by
  decide

/-- C3 (amended): front-matter removal is idempotent on every input whose
first application leaves a text that does not itself begin with a
front-matter opener `---\n`; a second application is then a no-op. -/
theorem stripFrontmatter_idem_of_no_leading_block (s : Str)
    (h : begins ("---\n".toList) (stripFrontmatter s) = false) :
    stripFrontmatter (stripFrontmatter s) = stripFrontmatter s :=
  stripFrontmatter_of_no_block h

/-- C3 (witness for the amended claim). -/
theorem stripFrontmatter_idem_witness :
    begins ("---\n".toList) (stripFrontmatter ("---\nt: x\n---\nHello".toList)) = false
    ∧ stripFrontmatter (stripFrontmatter ("---\nt: x\n---\nHello".toList))
        = stripFrontmatter ("---\nt: x\n---\nHello".toList) :=
  ⟨by decide, stripFrontmatter_idem_of_no_leading_block ("---\nt: x\n---\nHello".toList) (by decide)⟩

/-- C4: when no explicit title is given and no line of the raw input matches
`^# (.+)$`, the resolved title is `title_from_filename` of the input path
(stem, separators to spaces, title case) and the content is left unchanged. -/
theorem title_falls_back_to_filename (f md : Str) (h : searchHeading md = none) :
    resolveTitle none f md = (title_from_filename f, md) := by
  simp [resolveTitle, h]

/-- C4 (witness). -/
theorem title_falls_back_to_filename_witness :
    searchHeading ("hello\nworld".toList) = none
    ∧ resolveTitle none ("drafts/my-first-essay.md".toList) ("hello\nworld".toList)
        = ("My First Essay".toList, "hello\nworld".toList) :=
  ⟨by decide, title_falls_back_to_filename ("drafts/my-first-essay.md".toList)
    ("hello\nworld".toList) (by decide)⟩

/-- C5: the output filename is the lowercased title with every character
outside `[a-z0-9\s-]` removed and each whitespace run collapsed to a single
hyphen, with `.html` appended; in particular `Hello, World!` yields
`hello-world.html`. -/
theorem filename_from_title_spec :
    (∀ t : Str, filename_from_title t
      = collapseRuns isPySpace ("-".toList) ((t.map Char.toLower).filter slugKeep)
        ++ (".html".toList))
    ∧ filename_from_title ("Hello, World!".toList) = "hello-world.html".toList := by
  constructor
  · intro t
    simp only [filename_from_title]
    rw [subCharClass_filter, subClassRun_eq_collapseRuns]
  · decide

/-- C6: when the input file does not exist the run exits with status 1 and
writes nothing (in particular nothing under the `essays` directory). -/
theorem missing_input_no_output (f : Str) (rest : List Str) (fs : Str → Option Str)
    (h : fs f = none) :
    exitCode (runMain (f :: rest) fs) = 1 ∧ writesOf (runMain (f :: rest) fs) = [] := by
  simp [runMain, h, exitCode, writesOf]

/-- C6 (witness). -/
theorem missing_input_no_output_witness :
    exitCode (runMain [("missing.md".toList)] (fun _ => none)) = 1
    ∧ writesOf (runMain [("missing.md".toList)] (fun _ => none)) = [] :=
  missing_input_no_output ("missing.md".toList) [] (fun _ => none) rfl

/-- C10: every generated filename is a slug of lowercase letters, digits and
hyphens followed by `.html`; a title with no letter, digit, hyphen or
whitespace yields the bare filename `.html`, which the program still uses as
the output path under `essays`. -/
theorem slug_charset_and_empty_slug :
    (∀ t : Str, filename_from_title t = slugPart t ++ (".html".toList)
      ∧ (slugPart t).all slugChar = true)
    ∧ filename_from_title ("?!?".toList) = ".html".toList
    ∧ pathOf (runMain [("note.md".toList), ("?!?".toList)] (fun _ => some ("hi".toList)))
        = some ("essays/.html".toList) := by
  refine ⟨fun t => ⟨rfl, ?_⟩, by decide, by decide⟩
  have hkeep : ∀ c ∈ subCharClass (fun c => !(slugKeep c)) [] (t.map Char.toLower),
      slugKeep c = true := by
    rw [subCharClass_filter]
    intro c hc
    exact List.of_mem_filter hc
  exact List.all_eq_true.mpr (subClassRunAux_slug hkeep false)

theorem headOfLine_marker {t : Str} (ht : t ≠ []) :
    headOfLine (("# ".toList) ++ t) = some t := by
  have hb := begins_append_self ("# ".toList) t
  have hdrop : (("# ".toList) ++ t).drop 2 = t := rfl
  unfold headOfLine
  rw [hb]
  simp only [if_true, hdrop, isEmpty_false_of_ne ht]
  simp

theorem resolveTitle_first_line (f t rest : Str) (ht : t ≠ []) (hn : '\n' ∉ t) :
    resolveTitle none f (("# ".toList ++ t) ++ '\n' :: rest) = (t, rest) := by
  have hL : '\n' ∉ ("# ".toList) ++ t := by
    intro hm
    rcases List.mem_append.mp hm with h | h
    · exact absurd h (by decide)
    · exact hn h
  have hsplit : splitNL (("# ".toList ++ t) ++ '\n' :: rest)
      = ("# ".toList ++ t) :: splitNL rest := splitNL_append rest hL
  have hsearch : searchHeading (("# ".toList ++ t) ++ '\n' :: rest) = some t := by
    unfold searchHeading
    rw [hsplit]
    unfold findHeadingLine
    rw [headOfLine_marker ht]
  have hshape : ("# ".toList ++ t) ++ '\n' :: rest = "# ".toList ++ (t ++ '\n' :: rest) := by
    simp
  have hb2 : begins ("# ".toList) (("# ".toList ++ t) ++ '\n' :: rest) = true := by
    rw [hshape]
    exact begins_append_self _ _
  have hdrop2 : (("# ".toList ++ t) ++ '\n' :: rest).drop 2 = t ++ '\n' :: rest := by
    rw [hshape]
    rfl
  have hrem : removeLeadingHeading (("# ".toList ++ t) ++ '\n' :: rest) = rest := by
    unfold removeLeadingHeading
    rw [hb2]
    simp only [if_true, hdrop2, takeWhile_append_stop rest hn,
      dropWhile_append_stop rest hn, isEmpty_false_of_ne ht]
    simp
  simp only [resolveTitle, hsearch, hrem]

/-- C1 (amended): with no explicit title, the captured text of the first
line matching `^# (.+)$` becomes the title; the heading line itself is
removed from the body only when it is the very first line of the input (the
removal pattern is anchored at the start of the text and not multiline).
For an input that begins with the heading line, the title is the captured
text and the heading line is removed; in particular `# My Essay` as first
line resolves to title `My Essay` with that line absent from the rendered
body. -/
theorem title_from_first_heading_line (f t rest : Str) (ht : t ≠ []) (hn : '\n' ∉ t) :
    resolveTitle none f (("# ".toList ++ t) ++ '\n' :: rest) = (t, rest)
    ∧ resolveTitle none ("my-essay.md".toList) ("# My Essay\nBody text.\n".toList)
        = ("My Essay".toList, "Body text.\n".toList)
    ∧ markdown_to_html ("Body text.\n".toList) = "<p>Body text.</p>".toList :=
  ⟨resolveTitle_first_line f t rest ht hn, by decide, by decide⟩

/-- C1 (witness for the amended claim). -/
theorem title_from_first_heading_line_witness :
    (resolveTitle none ("f.md".toList) (("# ".toList ++ ("T".toList)) ++ '\n' :: ("x".toList))
        = ("T".toList, "x".toList))
    ∧ resolveTitle none ("my-essay.md".toList) ("# My Essay\nBody text.\n".toList)
        = ("My Essay".toList, "Body text.\n".toList)
    ∧ markdown_to_html ("Body text.\n".toList) = "<p>Body text.</p>".toList :=
  title_from_first_heading_line ("f.md".toList) ("T".toList) ("x".toList)
    (by decide) (by decide)

/-- C1 (counterexample): when the first `^# (.+)$` line is not the first
line of the input, its text still becomes the title but the heading line is
not removed from the body (the body is passed on unchanged, so the heading
line is still present among its lines, contrary to the claim that the first
occurrence is removed). -/
theorem title_heading_not_removed_midtext :
    resolveTitle none ("f.md".toList) ("intro\n# T\nbody\n".toList)
      = ("T".toList, "intro\n# T\nbody\n".toList)
    ∧ ("# T".toList) ∈ splitNL ((resolveTitle none ("f.md".toList)
        ("intro\n# T\nbody\n".toList)).2)
    ∧ ("intro\n# T\nbody\n".toList) ≠ ("intro\nbody\n".toList) := by
  refine ⟨by decide, by decide, by decide⟩

/-- C2 (amended): title resolution happens on the raw content, before
front-matter stripping (which only occurs inside `markdown_to_html`).  A
`# ` heading line inside the leading front-matter block therefore becomes
the resolved title, and the content is passed on unchanged (the heading is
not at the start of the text, so the anchored removal does nothing). -/
theorem title_resolved_before_frontmatter_strip (f t rest : Str)
    (ht : t ≠ []) (hn : '\n' ∉ t) :
    resolveTitle none f (("---\n# ".toList ++ t) ++ ("\n---\n".toList ++ rest))
      = (t, ("---\n# ".toList ++ t) ++ ("\n---\n".toList ++ rest)) := by
  have hL : '\n' ∉ ("# ".toList) ++ t := by
    intro hm
    rcases List.mem_append.mp hm with h | h
    · exact absurd h (by decide)
    · exact hn h
  have hshape : ("---\n# ".toList ++ t) ++ ("\n---\n".toList ++ rest)
      = ("---".toList) ++ '\n' :: (("# ".toList ++ t)
          ++ '\n' :: (("---".toList) ++ '\n' :: rest)) := by
    simp
  have hsplit : splitNL (("---\n# ".toList ++ t) ++ ("\n---\n".toList ++ rest))
      = ("---".toList) :: ("# ".toList ++ t) :: ("---".toList) :: splitNL rest := by
    rw [hshape, splitNL_append _ (by decide), splitNL_append _ hL,
      splitNL_append _ (by decide)]
  have hnone : headOfLine ("---".toList) = none := by decide
  have hsearch : searchHeading (("---\n# ".toList ++ t) ++ ("\n---\n".toList ++ rest))
      = some t := by
    unfold searchHeading
    rw [hsplit]
    simp only [findHeadingLine, hnone, headOfLine_marker ht]
  have hb : begins ("# ".toList) (("---\n# ".toList ++ t) ++ ("\n---\n".toList ++ rest))
      = false := by
    rw [hshape]
    exact begins_cons_of_ne (by decide)
  have hrem : removeLeadingHeading (("---\n# ".toList ++ t) ++ ("\n---\n".toList ++ rest))
      = ("---\n# ".toList ++ t) ++ ("\n---\n".toList ++ rest) := by
    unfold removeLeadingHeading
    rw [hb]
    simp
  simp only [resolveTitle, hsearch, hrem]

/-- C2 (witness for the amended claim). -/
theorem title_resolved_before_frontmatter_strip_witness :
    resolveTitle none ("my-post.md".toList)
        (("---\n# ".toList ++ ("Secret".toList)) ++ ("\n---\n".toList ++ ("body".toList)))
      = ("Secret".toList,
          ("---\n# ".toList ++ ("Secret".toList)) ++ ("\n---\n".toList ++ ("body".toList))) :=
  title_resolved_before_frontmatter_strip ("my-post.md".toList) ("Secret".toList)
    ("body".toList) (by decide) (by decide)

/-- C2 (counterexample): for an input whose only `^# (.+)$` line lies inside
the leading front-matter block and with no explicit title, the resolved
title is the heading text from inside the front-matter, not the
filename-derived title claimed by the spec. -/
theorem frontmatter_heading_becomes_title :
    resolveTitle none ("my-post.md".toList) ("---\n# Secret\n---\nbody".toList)
      = ("Secret".toList, "---\n# Secret\n---\nbody".toList)
    ∧ title_from_filename ("my-post.md".toList) = "My Post".toList
    ∧ ("Secret".toList) ≠ ("My Post".toList) := by
  refine ⟨by decide, by decide, by decide⟩

theorem not_mem_sandwich {c : Char} {x : Str} (opn cls : Str)
    (h1 : c ∉ opn) (h2 : c ∉ x) (h3 : c ∉ cls) : c ∉ opn ++ x ++ cls := by
  intro hm
  rcases List.mem_append.mp hm with h | h
  · rcases List.mem_append.mp h with h' | h'
    · exact h1 h'
    · exact h2 h'
  · exact h3 h

/-- C7: the triple emphasis markers are matched before the two-character
forms: a standalone span `***x***` (or `___x___`) whose body contains no
asterisk, underscore or newline is rewritten by the emphasis pipeline to
the nested form `<strong><em>x</em></strong>`, and the later double/single
marker substitutions leave that result untouched. -/
theorem triple_emphasis_first (x : Str) (h0 : x ≠ [])
    (hs : '*' ∉ x) (hu : '_' ∉ x) (hn : '\n' ∉ x) :
    applyEmphasis (("***".toList) ++ x ++ ("***".toList))
        = ("<strong><em>".toList) ++ x ++ ("</em></strong>".toList)
    ∧ applyEmphasis (("___".toList) ++ x ++ ("___".toList))
        = ("<strong><em>".toList) ++ x ++ ("</em></strong>".toList) := by
  have hok : ∀ c ∈ x, okNl c = true := by
    intro c hc
    have : c ≠ '\n' := fun he => hn (he ▸ hc)
    simp [okNl, this]
  have hds : ∀ c ∈ x, c ≠ '*' := fun c hc he => hs (he ▸ hc)
  have hdu : ∀ c ∈ x, c ≠ '_' := fun c hc he => hu (he ▸ hc)
  have hres_s : '*' ∉ ("<strong><em>".toList) ++ x ++ ("</em></strong>".toList) :=
    not_mem_sandwich _ _ (by decide) hs (by decide)
  have hres_u : '_' ∉ ("<strong><em>".toList) ++ x ++ ("</em></strong>".toList) :=
    not_mem_sandwich _ _ (by decide) hu (by decide)
  constructor
  · have step1 : subPat okNl ("***".toList) ("***".toList) ("<strong><em>".toList)
        ("</em></strong>".toList) (("***".toList) ++ x ++ ("***".toList))
        = ("<strong><em>".toList) ++ x ++ ("</em></strong>".toList) :=
      subPat_exact _ _ h0 hok hds
    have id2 : subPat okNl ("**".toList) ("**".toList) ("<strong>".toList)
        ("</strong>".toList) (("<strong><em>".toList) ++ x ++ ("</em></strong>".toList))
        = ("<strong><em>".toList) ++ x ++ ("</em></strong>".toList) :=
      subPat_id_of_not_mem hres_s
    have id3 : subPat okNl ("*".toList) ("*".toList) ("<em>".toList)
        ("</em>".toList) (("<strong><em>".toList) ++ x ++ ("</em></strong>".toList))
        = ("<strong><em>".toList) ++ x ++ ("</em></strong>".toList) :=
      subPat_id_of_not_mem hres_s
    have id4 : subPat okNl ("___".toList) ("___".toList) ("<strong><em>".toList)
        ("</em></strong>".toList) (("<strong><em>".toList) ++ x ++ ("</em></strong>".toList))
        = ("<strong><em>".toList) ++ x ++ ("</em></strong>".toList) :=
      subPat_id_of_not_mem hres_u
    have id5 : subPat okNl ("__".toList) ("__".toList) ("<strong>".toList)
        ("</strong>".toList) (("<strong><em>".toList) ++ x ++ ("</em></strong>".toList))
        = ("<strong><em>".toList) ++ x ++ ("</em></strong>".toList) :=
      subPat_id_of_not_mem hres_u
    have id6 : subPat okNl ("_".toList) ("_".toList) ("<em>".toList)
        ("</em>".toList) (("<strong><em>".toList) ++ x ++ ("</em></strong>".toList))
        = ("<strong><em>".toList) ++ x ++ ("</em></strong>".toList) :=
      subPat_id_of_not_mem hres_u
    simp only [applyEmphasis]
    rw [step1, id2, id3, id4, id5, id6]
  · have hin_s : '*' ∉ ("___".toList) ++ x ++ ("___".toList) :=
      not_mem_sandwich _ _ (by decide) hs (by decide)
    have step4 : subPat okNl ("___".toList) ("___".toList) ("<strong><em>".toList)
        ("</em></strong>".toList) (("___".toList) ++ x ++ ("___".toList))
        = ("<strong><em>".toList) ++ x ++ ("</em></strong>".toList) :=
      subPat_exact _ _ h0 hok hdu
    have jd1 : subPat okNl ("***".toList) ("***".toList) ("<strong><em>".toList)
        ("</em></strong>".toList) (("___".toList) ++ x ++ ("___".toList))
        = ("___".toList) ++ x ++ ("___".toList) :=
      subPat_id_of_not_mem hin_s
    have jd2 : subPat okNl ("**".toList) ("**".toList) ("<strong>".toList)
        ("</strong>".toList) (("___".toList) ++ x ++ ("___".toList))
        = ("___".toList) ++ x ++ ("___".toList) :=
      subPat_id_of_not_mem hin_s
    have jd3 : subPat okNl ("*".toList) ("*".toList) ("<em>".toList)
        ("</em>".toList) (("___".toList) ++ x ++ ("___".toList))
        = ("___".toList) ++ x ++ ("___".toList) :=
      subPat_id_of_not_mem hin_s
    have jd5 : subPat okNl ("__".toList) ("__".toList) ("<strong>".toList)
        ("</strong>".toList) (("<strong><em>".toList) ++ x ++ ("</em></strong>".toList))
        = ("<strong><em>".toList) ++ x ++ ("</em></strong>".toList) :=
      subPat_id_of_not_mem hres_u
    have jd6 : subPat okNl ("_".toList) ("_".toList) ("<em>".toList)
        ("</em>".toList) (("<strong><em>".toList) ++ x ++ ("</em></strong>".toList))
        = ("<strong><em>".toList) ++ x ++ ("</em></strong>".toList) :=
      subPat_id_of_not_mem hres_u
    simp only [applyEmphasis]
    rw [jd1, jd2, jd3, step4, jd5, jd6]

/-- C7 (witness). -/
theorem triple_emphasis_first_witness :
    applyEmphasis (("***".toList) ++ ("bold-italic".toList) ++ ("***".toList))
        = ("<strong><em>".toList) ++ ("bold-italic".toList) ++ ("</em></strong>".toList)
    ∧ applyEmphasis (("___".toList) ++ ("bold-italic".toList) ++ ("___".toList))
        = ("<strong><em>".toList) ++ ("bold-italic".toList) ++ ("</em></strong>".toList) :=
  triple_emphasis_first ("bold-italic".toList) (by decide) (by decide) (by decide) (by decide)

/-- The line-anchored heading marker of level `n`: `n` hashes and a space. -/
def hashMarker (n : Nat) : Str := List.replicate n '#' ++ [' ']

/-- Opening heading tag of level `n` (1-4). -/
def hOpen : Nat → Str
  | 1 => "<h1>".toList
  | 2 => "<h2>".toList
  | 3 => "<h3>".toList
  | 4 => "<h4>".toList
  | _ => []

/-- Closing heading tag of level `n` (1-4). -/
def hClose : Nat → Str
  | 1 => "</h1>".toList
  | 2 => "</h2>".toList
  | 3 => "</h3>".toList
  | 4 => "</h4>".toList
  | _ => []

theorem headLineAll_marker (n : Nat) (h1 : 1 ≤ n) (h2 : n ≤ 4) (rest : Str)
    (hr : rest ≠ []) :
    headLineAll (hashMarker n ++ rest) = hOpen n ++ rest ++ hClose n := by
  interval_cases n <;>
    simp [headLineAll, hashMarker, hLine, begins, isEmpty_false_of_ne hr, hOpen, hClose]

/-- C8: the heading substitutions run longest marker first, so inside any
text a line consisting of an `n`-hash marker (1 ≤ n ≤ 4) followed by a
non-empty remainder becomes exactly the level-`n` heading tag, while all
other lines receive the ordinary per-line heading treatment; no shorter
marker ever captures such a line. -/
theorem headings_longest_marker_first (n : Nat) (h1 : 1 ≤ n) (h2 : n ≤ 4)
    (pre post : List Str) (rest : Str)
    (hpre : ∀ l ∈ pre, '\n' ∉ l) (hpost : ∀ l ∈ post, '\n' ∉ l)
    (hr : rest ≠ []) (hrn : '\n' ∉ rest) :
    applyHeadings (joinNL (pre ++ (hashMarker n ++ rest) :: post))
      = joinNL (pre.map headLineAll
          ++ (hOpen n ++ rest ++ hClose n) :: post.map headLineAll) := by
  have hmid : '\n' ∉ hashMarker n ++ rest := by
    intro hm
    rcases List.mem_append.mp hm with h | h
    · rcases List.mem_append.mp h with h' | h'
      · exact absurd (List.eq_of_mem_replicate h') (by decide)
      · simp at h'
    · exact hrn h
  have hall : ∀ l ∈ pre ++ (hashMarker n ++ rest) :: post, '\n' ∉ l := by
    intro l hl
    rcases List.mem_append.mp hl with h | h
    · exact hpre l h
    · rcases List.mem_cons.mp h with h' | h'
      · subst h'; exact hmid
      · exact hpost l h'
  have hne : pre ++ (hashMarker n ++ rest) :: post ≠ [] := by simp
  rw [applyHeadings_join hne hall, List.map_append, List.map_cons,
    headLineAll_marker n h1 h2 rest hr]

/-- C8 (witness). -/
theorem headings_longest_marker_first_witness :
    applyHeadings (joinNL ([("a".toList)] ++ (hashMarker 2 ++ ("Hi".toList)) :: []))
      = joinNL ([("a".toList)].map headLineAll
          ++ (hOpen 2 ++ ("Hi".toList) ++ hClose 2) :: List.map headLineAll []) :=
  headings_longest_marker_first 2 (by decide) (by decide) [("a".toList)] []
    ("Hi".toList) (by decide) (by decide) (by decide) (by decide)

/-- C9: a trimmed paragraph block that is non-empty and does not start with
a heading or list-container tag has each internal newline replaced by a
space and is wrapped in a single paragraph tag; in particular the full
pipeline renders the two-line paragraph `line one\nline two` as one
`<p>` element containing `line one line two`. -/
theorem paragraph_wrap_spec (p : Str) (h1 : pyStrip p ≠ [])
    (h2 : begins ("<h".toList) (pyStrip p) = false)
    (h3 : begins ("<ul".toList) (pyStrip p) = false)
    (h4 : begins ("<ol".toList) (pyStrip p) = false) :
    processBlock p = some (("<p>".toList)
        ++ (pyStrip p).map (fun c => if c = '\n' then ' ' else c) ++ ("</p>".toList))
    ∧ markdown_to_html ("line one\nline two".toList)
        = "<p>line one line two</p>".toList := by
  constructor
  · simp only [processBlock]
    rw [isEmpty_false_of_ne h1, h2, h3, h4]
    simp
  · decide

/-- C9 (witness). -/
theorem paragraph_wrap_spec_witness :
    (processBlock ("a\nb".toList) = some (("<p>".toList)
        ++ (pyStrip ("a\nb".toList)).map (fun c => if c = '\n' then ' ' else c)
        ++ ("</p>".toList)))
    ∧ markdown_to_html ("line one\nline two".toList)
        = "<p>line one line two</p>".toList :=
  paragraph_wrap_spec ("a\nb".toList) (by decide) (by decide) (by decide) (by decide)
